import Mathlib

/-!
Shallow embedding of `blueocean-dashboard/src/main/js/creation/github/GithubFlowManager.js`.

The flow manager drives a multi-step GitHub-onboarding wizard: credential
discovery, organization listing, paginated repository loading, saving an
organization folder, and an SSE-event/timeout completion state machine.

JavaScript observables become fields of an explicit state record `MState`;
each method's synchronous state mutation becomes a pure function on `MState`;
promise continuations become functions applied to an `Except` outcome; the
external event bus and timer are modelled by `deliverEvent` / `fireTimeout`,
which invoke the stored handler only while it is registered.
-/

namespace GithubFlow

/-- Status constants used by the flow manager, one per `STATUS.*` constant
referenced in the source (`GithubCreationStatus`). -/
inductive Status where
  | STEP_CHOOSE_DISCOVER
  | STEP_ALREADY_DISCOVER
  | PENDING_LOADING_REPOSITORIES
  | STEP_CONFIRM_DISCOVER
  | STEP_CHOOSE_REPOSITORY
  | PENDING_CREATION_SAVING
  | STEP_COMPLETE_SUCCESS
  | STEP_COMPLETE_SAVING_ERROR
  | STEP_COMPLETE_EVENT_ERROR
  | STEP_COMPLETE_EVENT_TIMEOUT
  deriving DecidableEq

/-- Step identifiers, one per step component pushed or substituted by the
flow manager (the view internals are out of scope). -/
inductive Step where
  | loading
  | credentials
  | orgList
  | chooseDiscover
  | alreadyDiscover
  | confirmDiscover
  | repository
  | complete
  deriving DecidableEq

/-- A repository as consumed by this component: only `name` and
`pipelineCreated` are read. -/
structure Repo where
  name : String
  pipelineCreated : Bool
  deriving DecidableEq

/-- An organization: the source reads `name`, `autoDiscover` and the
truthiness of `jenkinsOrganizationPipeline`. -/
structure Organization where
  name : String
  autoDiscover : Bool
  jenkinsOrganizationPipeline : Bool
  deriving DecidableEq

/-- The saved org folder resource; only `_links.self.href` is read by the
SSE handler, kept here as `selfHref`. -/
structure OrgFolder where
  selfHref : String
  deriving DecidableEq

/-- A credential; `credentialId` is `none` when the JS field is absent or
falsy. -/
structure Credential where
  credentialId : Option String
  deriving DecidableEq

/-- Error value carried by a rejected promise; the source reads
`error.responseBody`. -/
structure JsError where
  responseBody : String
  deriving DecidableEq

/-- One SSE event as read by `_onSseEvent`;
`job_multibranch_indexing_result` is optional because the source documents
that it can be missing (rate limiting). -/
structure SseEvent where
  blueocean_job_rest_url : String
  jenkins_event : String
  job_multibranch_indexing_result : Option String
  deriving DecidableEq

/-- The page payload destructured by `_updateRepositories`:
the destructuring of `repoData.repositories` into `items` and `nextPage`. -/
structure RepoPage where
  items : List Repo
  nextPage : Option Nat
  deriving DecidableEq

/-- A repository-list response, wrapping the page under `repositories`. -/
structure RepoPageResponse where
  repositories : RepoPage
  deriving DecidableEq

/-- The state of a `GithubFlowManager` instance: the observable fields plus
the private fields, the step stack and the pending-steps breadcrumb. -/
structure MState where
  status : Option Status
  organizations : List Organization
  repositories : List Repo
  selectedOrganization : Option Organization
  selectedRepository : Option Repo
  savedOrgFolder : Option OrgFolder
  repositoryCache : List (String × List Repo)
  discoverSelection : Option Bool
  credentialId : Option String
  sseSubscribeId : Option Nat
  sseTimeoutId : Option Nat
  stepStack : List Step
  pendingSteps : List String
  deriving DecidableEq

/-- The freshly constructed manager: every observable is empty or null and
the initial step (`getInitialStep`, a loading step) is on the stack. -/
def initState : MState :=
  { status := none
    organizations := []
    repositories := []
    selectedOrganization := none
    selectedRepository := none
    savedOrgFolder := none
    repositoryCache := []
    discoverSelection := none
    credentialId := none
    sseSubscribeId := none
    sseTimeoutId := none
    stepStack := [Step.loading]
    pendingSteps := [] }

/-- Modelled from the spec: the Step Stack's push appends a new step on top
(`FlowManager` from `flow2/` is outside the given sources; the spec states
push appends). The top of the stack is the last list entry. -/
def pushStep (step : Step) (s : MState) : MState :=
  { s with stepStack := s.stepStack ++ [step] }

/-- Modelled from the spec: replace swaps only the top entry of the step
stack. -/
def replaceCurrentStep (step : Step) (s : MState) : MState :=
  { s with stepStack := s.stepStack.dropLast ++ [step] }

/-- Modelled from the spec: sets the pending-steps breadcrumb list;
`setPendingSteps()` with no argument clears it (modelled as `[]`). -/
def setPendingSteps (steps : List String) (s : MState) : MState :=
  { s with pendingSteps := steps }

/-- Mirrors `_setStatus`. -/
def setStatus (st : Status) (s : MState) : MState :=
  { s with status := some st }

/-- Assignment `this._repositoryCache[organizationName] = ...` on the JS
object, as an association-list update keyed by organization name. -/
def cacheInsert (key : String) (v : List Repo) :
    List (String × List Repo) → List (String × List Repo)
  | [] => [(key, v)]
  | (k, w) :: rest =>
      if k = key then (key, v) :: rest else (k, w) :: cacheInsert key v rest

/-- Read `this._repositoryCache[key]`; `none` models an absent key. -/
def cacheLookup (key : String) : List (String × List Repo) → Option (List Repo)
  | [] => none
  | (k, w) :: rest => if k = key then some w else cacheLookup key rest

/-- Synchronous part of `_loadAllRepositories`: clear the repositories
collection and set status to pending-loading (the page-1 fetch it initiates
is modelled by the pagination driver below). -/
def loadAllRepositoriesStart (s : MState) : MState :=
  setStatus Status.PENDING_LOADING_REPOSITORIES { s with repositories := [] }

/-- Mirrors `_updateRepositories`: append the page's items to the
repositories collection, refresh the cache entry for the organization with a
copy of the collection, and — only when no further page is indicated — swap
the current step to confirm-discover or repository-picker according to the
truthiness of `_discoverSelection`, updating status to match. When
`nextPage` is non-null the source instead issues the next page fetch, which
is modelled by the pagination driver. -/
def updateRepositories (organizationName : String) (repoData : RepoPageResponse)
    (s : MState) : MState :=
  let items := repoData.repositories.items
  let nextPage := repoData.repositories.nextPage
  let s2 :=
    { s with
        repositories := s.repositories ++ items
        repositoryCache :=
          cacheInsert organizationName (s.repositories ++ items) s.repositoryCache }
  if nextPage.isSome then
    s2
  else if s2.discoverSelection.getD false then
    setStatus Status.STEP_CONFIRM_DISCOVER (replaceCurrentStep Step.confirmDiscover s2)
  else
    setStatus Status.STEP_CHOOSE_REPOSITORY (replaceCurrentStep Step.repository s2)

/-- The sequence of page responses delivered to the pagination routine, each
processed by `_updateRepositories` in arrival order. -/
def processPages (organizationName : String) (pages : List RepoPageResponse)
    (s : MState) : MState :=
  pages.foldl (fun st page => updateRepositories organizationName page st) s

/-- The recursive pagination driver of `_updateRepositories`: fetch the
page, process it, and keep fetching while the response carries a non-null
`nextPage` marker. Returns the final state together with the number of
fetches performed; `fuel` bounds the recursion depth. -/
def paginate (fetch : Nat → RepoPageResponse) (organizationName : String) :
    Nat → Nat → MState → MState × Nat
  | 0, _, s => (s, 0)
  | fuel + 1, pageNumber, s =>
      let page := fetch pageNumber
      let s1 := updateRepositories organizationName page s
      match page.repositories.nextPage with
      | none => (s1, 1)
      | some np =>
          let r := paginate fetch organizationName fuel np s1
          (r.1, r.2 + 1)

theorem updateRepositories_repositories (organizationName : String)
    (repoData : RepoPageResponse) (s : MState) :
    (updateRepositories organizationName repoData s).repositories
      = s.repositories ++ repoData.repositories.items := by
  unfold updateRepositories
  dsimp only
  split
  · rfl
  · split <;> rfl

theorem updateRepositories_repositoryCache (organizationName : String)
    (repoData : RepoPageResponse) (s : MState) :
    (updateRepositories organizationName repoData s).repositoryCache
      = cacheInsert organizationName (s.repositories ++ repoData.repositories.items)
          s.repositoryCache := by
  unfold updateRepositories
  dsimp only
  split
  · rfl
  · split <;> rfl

theorem cacheLookup_cacheInsert (key : String) (v : List Repo)
    (c : List (String × List Repo)) :
    cacheLookup key (cacheInsert key v c) = some v := by
  induction c with
  | nil => simp [cacheInsert, cacheLookup]
  | cons kv rest ih =>
      obtain ⟨k, w⟩ := kv
      by_cases h : k = key
      · simp [cacheInsert, cacheLookup, h]
      · simp [cacheInsert, cacheLookup, h, ih]

theorem processPages_repositories (organizationName : String)
    (pages : List RepoPageResponse) (s : MState) :
    (processPages organizationName pages s).repositories
      = s.repositories ++ (pages.map (fun p => p.repositories.items)).flatten := by
  induction pages generalizing s with
  | nil => simp [processPages]
  | cons p rest ih =>
      simp only [processPages, List.foldl_cons, List.map_cons, List.flatten_cons] at *
      rw [ih, updateRepositories_repositories, List.append_assoc]

theorem processPages_cache (organizationName : String)
    (pages : List RepoPageResponse) (s : MState) (hne : pages ≠ []) :
    cacheLookup organizationName
        (processPages organizationName pages s).repositoryCache
      = some (processPages organizationName pages s).repositories := by
  induction pages generalizing s with
  | nil => exact absurd rfl hne
  | cons p rest ih =>
      cases rest with
      | nil =>
          simp only [processPages, List.foldl_cons, List.foldl_nil]
          rw [updateRepositories_repositoryCache, updateRepositories_repositories]
          exact cacheLookup_cacheInsert _ _ _
      | cons q rest2 =>
          simp only [processPages, List.foldl_cons] at *
          exact ih _ (by simp)

/-- C1: for every sequence of page responses delivered to the pagination
routine (at least one page, the load having first cleared the collection),
after the final page is processed the repositories collection equals the
concatenation of all pages' items in arrival order, and the cache entry for
that organization name equals that same collection. -/
theorem pagination_collects_all_pages (organizationName : String)
    (pages : List RepoPageResponse) (s : MState) (hne : pages ≠ []) :
    (processPages organizationName pages (loadAllRepositoriesStart s)).repositories
        = (pages.map (fun p => p.repositories.items)).flatten
    ∧ cacheLookup organizationName
        (processPages organizationName pages (loadAllRepositoriesStart s)).repositoryCache
        = some ((pages.map (fun p => p.repositories.items)).flatten) := by
  have hrepos := processPages_repositories organizationName pages (loadAllRepositoriesStart s)
  have hempty : (loadAllRepositoriesStart s).repositories = [] := rfl
  rw [hempty, List.nil_append] at hrepos
  refine ⟨hrepos, ?_⟩
  rw [processPages_cache organizationName pages (loadAllRepositoriesStart s) hne, hrepos]

/-- Witness for C1 at a concrete two-page delivery. -/
theorem pagination_collects_all_pages_witness :
    (processPages "acme"
        [⟨⟨[⟨"a", false⟩], some 2⟩⟩, ⟨⟨[⟨"b", true⟩], none⟩⟩]
        (loadAllRepositoriesStart initState)).repositories
        = [⟨"a", false⟩, ⟨"b", true⟩]
    ∧ cacheLookup "acme"
        (processPages "acme"
          [⟨⟨[⟨"a", false⟩], some 2⟩⟩, ⟨⟨[⟨"b", true⟩], none⟩⟩]
          (loadAllRepositoriesStart initState)).repositoryCache
        = some [⟨"a", false⟩, ⟨"b", true⟩] := by
  have h := pagination_collects_all_pages "acme"
    [⟨⟨[⟨"a", false⟩], some 2⟩⟩, ⟨⟨[⟨"b", true⟩], none⟩⟩] initState (by simp)
  simpa using h

theorem paginate_fetches_pos (fetch : Nat → RepoPageResponse)
    (organizationName : String) (fuel pageNumber : Nat) (s : MState) :
    1 ≤ (paginate fetch organizationName (fuel + 1) pageNumber s).2 := by
  unfold paginate
  dsimp only
  split
  · exact Nat.le_refl 1
  · exact Nat.le_add_left 1 _

/-- C2: the pagination routine requests a further page if and only if the
response indicates another page (given fuel for at least two fetches, a
second fetch happens exactly when `nextPage` is non-null), and on a response
with `nextPage = null` it performs exactly one fetch and stops. -/
theorem pagination_stops_iff_no_next_page (fetch : Nat → RepoPageResponse)
    (organizationName : String) (s : MState) (pageNumber fuel : Nat) :
    ((fetch pageNumber).repositories.nextPage = none →
        (paginate fetch organizationName (fuel + 1) pageNumber s).2 = 1)
    ∧ (2 ≤ (paginate fetch organizationName (fuel + 2) pageNumber s).2 ↔
        ((fetch pageNumber).repositories.nextPage).isSome = true) := by
  constructor
  · intro hnone
    unfold paginate
    dsimp only
    split
    · rfl
    · next np heq => rw [hnone] at heq; exact absurd heq (by simp)
  · constructor
    · intro h2
      cases heq : (fetch pageNumber).repositories.nextPage with
      | none =>
          exfalso
          have : (paginate fetch organizationName (fuel + 2) pageNumber s).2 = 1 := by
            unfold paginate
            dsimp only
            split
            · rfl
            · next np heq2 => rw [heq] at heq2; exact absurd heq2 (by simp)
          omega
      | some np => rfl
    · intro hsome
      cases heq : (fetch pageNumber).repositories.nextPage with
      | none => rw [heq] at hsome; simp at hsome
      | some np =>
          have hrec :
              (paginate fetch organizationName (fuel + 2) pageNumber s).2
                = (paginate fetch organizationName (fuel + 1) np
                    (updateRepositories organizationName (fetch pageNumber) s)).2 + 1 := by
            conv_lhs => unfold paginate
            dsimp only
            split
            · next heq2 => rw [heq] at heq2; exact absurd heq2 (by simp)
            · next np2 heq2 =>
                rw [heq] at heq2
                cases heq2
                rfl
          rw [hrec]
          have := paginate_fetches_pos fetch organizationName fuel np
            (updateRepositories organizationName (fetch pageNumber) s)
          omega

/-- Witness for C2: a single page with `nextPage = null` yields exactly one
fetch, and no second fetch is requested. -/
theorem pagination_stops_iff_no_next_page_witness :
    (paginate (fun _ => ⟨⟨[], none⟩⟩) "acme" 1 1 initState).2 = 1
    ∧ ¬ 2 ≤ (paginate (fun _ => ⟨⟨[], none⟩⟩) "acme" 2 1 initState).2 := by
  have h := pagination_stops_iff_no_next_page (fun _ => ⟨⟨[], none⟩⟩) "acme" initState 1 0
  exact ⟨h.1 rfl, fun hc => by simpa using h.2.mp hc⟩

/-- JS `String.prototype.indexOf`, restricted to what the event handler
needs: the index of the first occurrence of `pat` in a character list,
`none` where JS returns `-1`. -/
def firstOccurrence (pat : List Char) : List Char → Option Nat
  | [] => if pat.isPrefixOf [] then some 0 else none
  | c :: t =>
      if pat.isPrefixOf (c :: t) then some 0
      else (firstOccurrence pat t).map (fun n => n + 1)

/-- The guard of `_onSseEvent`:
`event.blueocean_job_rest_url.indexOf(this.savedOrgFolder._links.self.href) === 0`. -/
def sseMatches (e : SseEvent) (folder : OrgFolder) : Bool :=
  firstOccurrence folder.selfHref.data e.blueocean_job_rest_url.data == some 0

/-- Mirrors `_cleanupListeners`: each of the two guards removes its own
handle when present (handler removal, then timer clearing). -/
def cleanupListeners (s : MState) : MState :=
  let s1 := if s.sseSubscribeId.isSome then { s with sseSubscribeId := none } else s
  if s1.sseTimeoutId.isSome then { s1 with sseTimeoutId := none } else s1

/-- Mirrors `_onSseEvent`. The handler is registered only by
`_saveOrgFolderSuccess`, which has just assigned `savedOrgFolder`, so the
`none` case never runs in the source (reading the link there would fault);
it is kept as the identity. -/
def onSseEvent (e : SseEvent) (s : MState) : MState :=
  match s.savedOrgFolder with
  | none => s
  | some folder =>
      if sseMatches e folder then
        if e.jenkins_event = "job_run_queue_task_complete" then
          if e.job_multibranch_indexing_result = some "SUCCESS" then
            cleanupListeners (setStatus Status.STEP_COMPLETE_SUCCESS s)
          else if e.job_multibranch_indexing_result = some "FAILURE" then
            cleanupListeners (setStatus Status.STEP_COMPLETE_EVENT_ERROR s)
          else s
        else s
      else s

/-- Mirrors `_onSseTimeout`. -/
def onSseTimeout (s : MState) : MState :=
  cleanupListeners (setStatus Status.STEP_COMPLETE_EVENT_TIMEOUT s)

/-- Modelled from the spec: the event bus (`sseService`) invokes the
registered handler on delivery; after `removeHandler` the handler is no
longer invoked, so delivery to a state with no subscription is a no-op. -/
def deliverEvent (e : SseEvent) (s : MState) : MState :=
  if s.sseSubscribeId.isSome then onSseEvent e s else s

/-- Modelled from the spec: a timer cancelled with `clearTimeout` never
fires; an armed timer runs `_onSseTimeout`. -/
def fireTimeout (s : MState) : MState :=
  if s.sseTimeoutId.isSome then onSseTimeout s else s

/-- Mirrors `destroy`. -/
def destroy (s : MState) : MState :=
  cleanupListeners s

/-- Mirrors `_saveOrgFolderSuccess`: set success status, record the saved
folder, register the SSE handler and start the 30-second timeout. -/
def saveOrgFolderSuccess (orgFolder : OrgFolder) (subId timerId : Nat)
    (s : MState) : MState :=
  { setStatus Status.STEP_COMPLETE_SUCCESS s with
      savedOrgFolder := some orgFolder
      sseSubscribeId := some subId
      sseTimeoutId := some timerId }

/-- Mirrors `_saveOrgFolderFailure`. -/
def saveOrgFolderFailure (s : MState) : MState :=
  setStatus Status.STEP_COMPLETE_SAVING_ERROR s

theorem cleanupListeners_sseSubscribeId (s : MState) :
    (cleanupListeners s).sseSubscribeId = none := by
  unfold cleanupListeners
  cases h1 : s.sseSubscribeId <;> cases h2 : s.sseTimeoutId <;> simp [h1, h2]

theorem cleanupListeners_sseTimeoutId (s : MState) :
    (cleanupListeners s).sseTimeoutId = none := by
  unfold cleanupListeners
  cases h1 : s.sseSubscribeId <;> cases h2 : s.sseTimeoutId <;> simp [h1, h2]

theorem cleanupListeners_status (s : MState) :
    (cleanupListeners s).status = s.status := by
  unfold cleanupListeners
  cases h1 : s.sseSubscribeId <;> cases h2 : s.sseTimeoutId <;> simp [h1, h2]

theorem cleanupListeners_of_cleared (s : MState)
    (h1 : s.sseSubscribeId = none) (h2 : s.sseTimeoutId = none) :
    cleanupListeners s = s := by
  simp [cleanupListeners, h1, h2]

theorem cleanupListeners_idem (s : MState) :
    cleanupListeners (cleanupListeners s) = cleanupListeners s :=
  cleanupListeners_of_cleared _ (cleanupListeners_sseSubscribeId s)
    (cleanupListeners_sseTimeoutId s)

/-- C3: a delivered event that is not a matching terminal event — its target
reference does not match the saved resource, or it is a matching
`job_run_queue_task_complete` event whose result is neither SUCCESS nor
FAILURE (including a missing result) — leaves the status unchanged and
leaves both the subscription and the timer armed. -/
theorem non_terminal_event_is_ignored (s : MState) (folder : OrgFolder)
    (e : SseEvent) (subId timerId : Nat)
    (hf : s.savedOrgFolder = some folder)
    (hsub : s.sseSubscribeId = some subId)
    (htim : s.sseTimeoutId = some timerId)
    (h : sseMatches e folder = false ∨
      (sseMatches e folder = true ∧
        e.jenkins_event = "job_run_queue_task_complete" ∧
        e.job_multibranch_indexing_result ≠ some "SUCCESS" ∧
        e.job_multibranch_indexing_result ≠ some "FAILURE")) :
    (onSseEvent e s).status = s.status
    ∧ (onSseEvent e s).sseSubscribeId = some subId
    ∧ (onSseEvent e s).sseTimeoutId = some timerId := by
  have hid : onSseEvent e s = s := by
    unfold onSseEvent
    rw [hf]
    rcases h with hm | ⟨hm, hj, hs, hfr⟩
    · simp [hm]
    · simp [hm, hj, hs, hfr]
  rw [hid]
  exact ⟨rfl, hsub, htim⟩

/-- Witness for C3 at a concrete armed state and a non-matching event. -/
theorem non_terminal_event_is_ignored_witness :
    (onSseEvent ⟨"/other", "x", none⟩
        (saveOrgFolderSuccess ⟨"/job/a/"⟩ 1 2 initState)).status
      = (saveOrgFolderSuccess ⟨"/job/a/"⟩ 1 2 initState).status
    ∧ (onSseEvent ⟨"/other", "x", none⟩
        (saveOrgFolderSuccess ⟨"/job/a/"⟩ 1 2 initState)).sseSubscribeId = some 1
    ∧ (onSseEvent ⟨"/other", "x", none⟩
        (saveOrgFolderSuccess ⟨"/job/a/"⟩ 1 2 initState)).sseTimeoutId = some 2 :=
  non_terminal_event_is_ignored (saveOrgFolderSuccess ⟨"/job/a/"⟩ 1 2 initState)
    ⟨"/job/a/"⟩ ⟨"/other", "x", none⟩ 1 2 rfl rfl rfl (Or.inl (by decide))

/-- C4: when the timeout fires on a state whose timer is armed, the status
becomes the timeout-error variant, both the subscription and the timer are
released, and any event delivered afterwards has no effect. -/
theorem timeout_disarms_and_later_events_ignored (s : MState) (e : SseEvent)
    (h : s.sseTimeoutId.isSome = true) :
    (fireTimeout s).status = some Status.STEP_COMPLETE_EVENT_TIMEOUT
    ∧ (fireTimeout s).sseSubscribeId = none
    ∧ (fireTimeout s).sseTimeoutId = none
    ∧ deliverEvent e (fireTimeout s) = fireTimeout s := by
  have hft : fireTimeout s = onSseTimeout s := by simp [fireTimeout, h]
  have hsub : (fireTimeout s).sseSubscribeId = none := by
    rw [hft]; exact cleanupListeners_sseSubscribeId _
  refine ⟨?_, hsub, ?_, ?_⟩
  · rw [hft]
    show (cleanupListeners (setStatus Status.STEP_COMPLETE_EVENT_TIMEOUT s)).status = _
    rw [cleanupListeners_status]
    rfl
  · rw [hft]; exact cleanupListeners_sseTimeoutId _
  · simp [deliverEvent, hsub]

/-- Witness for C4 at a concrete armed state. -/
theorem timeout_disarms_witness :
    (fireTimeout (saveOrgFolderSuccess ⟨"/job/a/"⟩ 1 2 initState)).status
      = some Status.STEP_COMPLETE_EVENT_TIMEOUT
    ∧ (fireTimeout (saveOrgFolderSuccess ⟨"/job/a/"⟩ 1 2 initState)).sseSubscribeId = none
    ∧ (fireTimeout (saveOrgFolderSuccess ⟨"/job/a/"⟩ 1 2 initState)).sseTimeoutId = none
    ∧ deliverEvent ⟨"/job/a/x", "job_run_queue_task_complete", some "SUCCESS"⟩
        (fireTimeout (saveOrgFolderSuccess ⟨"/job/a/"⟩ 1 2 initState))
      = fireTimeout (saveOrgFolderSuccess ⟨"/job/a/"⟩ 1 2 initState) :=
  timeout_disarms_and_later_events_ignored
    (saveOrgFolderSuccess ⟨"/job/a/"⟩ 1 2 initState)
    ⟨"/job/a/x", "job_run_queue_task_complete", some "SUCCESS"⟩ rfl

theorem firstOccurrence_eq_zero_iff (pat s : List Char) :
    firstOccurrence pat s = some 0 ↔ pat.isPrefixOf s = true := by
  cases s with
  | nil =>
      unfold firstOccurrence
      split <;> simp_all
  | cons c t =>
      unfold firstOccurrence
      split
      · simp_all
      · next hnp =>
          simp only [Option.map_eq_some']
          constructor
          · rintro ⟨n, -, hn⟩
            exact absurd hn (Nat.succ_ne_zero n)
          · intro hp
            exact absurd hp (by simp [hnp])

/-- C10: event-to-resource matching is prefix-based — `sseMatches` holds
exactly when the saved folder's self-link href occurs at index 0 of the
event's `blueocean_job_rest_url`, i.e. is a string prefix of it; in
particular any URL extending the folder's href (a resource nested under the
folder) matches. -/
theorem sse_matching_is_prefix_based (e : SseEvent) (folder : OrgFolder) :
    (sseMatches e folder = true ↔
      folder.selfHref.data <+: e.blueocean_job_rest_url.data)
    ∧ (∀ rest : List Char,
        e.blueocean_job_rest_url.data = folder.selfHref.data ++ rest →
        sseMatches e folder = true) := by
  have hiff : sseMatches e folder = true ↔
      folder.selfHref.data <+: e.blueocean_job_rest_url.data := by
    unfold sseMatches
    simp only [beq_iff_eq]
    rw [firstOccurrence_eq_zero_iff]
    simp
  refine ⟨hiff, fun rest hrest => ?_⟩
  rw [hiff, hrest]
  exact ⟨rest, rfl⟩

/-- Witness for C10: an event for a resource nested under the folder's URL
matches. -/
theorem sse_matching_is_prefix_based_witness :
    sseMatches ⟨"/job/a/b", "x", none⟩ ⟨"/job/a/"⟩ = true :=
  (sse_matching_is_prefix_based ⟨"/job/a/b", "x", none⟩ ⟨"/job/a/"⟩).2
    ['b'] (by decide)

/-- Mirrors the computed view `selectableRepositories`: filter out the
repositories already bound to a pipeline (the observable collection is never
null, the source's null-guard then always takes the filter branch). -/
def selectableRepositories (s : MState) : List Repo :=
  s.repositories.filter (fun repo => !repo.pipelineCreated)

/-- Mirrors `_afterInitialStep`: with a truthy `credential.credentialId`
store it and start `listOrganizations` (whose synchronous part changes no
state — its continuation is `_updateOrganizations`); otherwise swap in the
credentials-entry step. -/
def afterInitialStep (credential : Option Credential) (s : MState) : MState :=
  match credential with
  | some cred =>
      match cred.credentialId with
      | some cid => { s with credentialId := some cid }
      | none => replaceCurrentStep Step.credentials s
  | none => replaceCurrentStep Step.credentials s

/-- The value returned by `createAccessToken`'s continuations:
an object with a `success` flag and an optional `detail`. -/
structure CreateTokenResult where
  success : Bool
  detail : Option String
  deriving DecidableEq

/-- Mirrors `_createTokenSuccess`: store the credential id, push a loading
step, start `listOrganizations`, and return a successful result with no detail. -/
def createTokenSuccess (cred : Credential) (s : MState) : MState × CreateTokenResult :=
  (pushStep Step.loading { s with credentialId := cred.credentialId },
    { success := true, detail := none })

/-- Mirrors `_createTokenFailure`: return the structured failure carrying the
error's response body; no state is touched. -/
def createTokenFailure (error : JsError) : CreateTokenResult :=
  { success := false, detail := some error.responseBody }

/-- The pair of continuations `createAccessToken` installs on the token
promise, applied to the settled outcome. -/
def createAccessTokenCont (outcome : Except JsError Credential) (s : MState) :
    MState × CreateTokenResult :=
  match outcome with
  | Except.ok cred => createTokenSuccess cred s
  | Except.error e => (s, createTokenFailure e)

/-- Mirrors `_updateOrganizations`. -/
def updateOrganizations (organizations : List Organization) (s : MState) : MState :=
  setPendingSteps ["Complete"]
    (replaceCurrentStep Step.orgList { s with organizations := organizations })

/-- Mirrors `selectOrganization`. -/
def selectOrganization (organization : Organization) (s : MState) : MState :=
  pushStep Step.chooseDiscover
    (setStatus Status.STEP_CHOOSE_DISCOVER { s with selectedOrganization := some organization })

/-- Mirrors `selectDiscover`: record the choice, then branch on
`selectedOrganization.autoDiscover && discover`. The source dereferences
`selectedOrganization`, which is always set when this runs; the `none` case
is kept as recording the choice only. -/
def selectDiscover (discover : Bool) (s : MState) : MState :=
  let s0 := { s with discoverSelection := some discover }
  match s0.selectedOrganization with
  | none => s0
  | some org =>
      if org.autoDiscover && discover then
        pushStep Step.alreadyDiscover (setStatus Status.STEP_ALREADY_DISCOVER s0)
      else
        pushStep Step.loading (loadAllRepositoriesStart s0)

/-- Mirrors `selectRepository`. -/
def selectRepository (repo : Repo) (s : MState) : MState :=
  { s with selectedRepository := some repo }

/-- The network operation `_saveOrgFolder` issues: create vs. update, with
the repo-name list to persist. -/
structure SaveRequest where
  shouldCreate : Bool
  repoNames : List String
  deriving DecidableEq

/-- Mirrors the synchronous part of `_saveOrgFolder`: set saving status,
push the completion step, clear the breadcrumb, and choose create-vs-update
from the truthiness of the organization's `jenkinsOrganizationPipeline`.
`none` is returned for the request when no organization is selected (the
source would fault reading it there; `_saveOrgFolder` only runs after
selection). -/
def saveOrgFolderStart (repoNames : List String) (s : MState) :
    MState × Option SaveRequest :=
  let s1 := setPendingSteps [] (pushStep Step.complete (setStatus Status.PENDING_CREATION_SAVING s))
  match s1.selectedOrganization with
  | none => (s1, none)
  | some org =>
      (s1, some { shouldCreate := !org.jenkinsOrganizationPipeline, repoNames := repoNames })

/-- Mirrors `_getFullRepoNameList`: names of cache entries flagged
pipeline-created, then the selected repository's name. `none` models the
faults the source would hit on a missing cache entry or selection. -/
def getFullRepoNameList (s : MState) : Option (List String) :=
  match s.selectedOrganization with
  | none => none
  | some org =>
      match cacheLookup org.name s.repositoryCache with
      | none => none
      | some allRepos =>
          match s.selectedRepository with
          | none => none
          | some sel =>
              some (((allRepos.filter (fun repo => repo.pipelineCreated)).map
                (fun repo => repo.name)) ++ [sel.name])

/-- Mirrors `saveSingleRepo`. -/
def saveSingleRepo (s : MState) : Option (MState × Option SaveRequest) :=
  (getFullRepoNameList s).map (fun repoNames => saveOrgFolderStart repoNames s)

/-- Mirrors `saveAutoDiscover`: `_saveOrgFolder` with the default empty
name list. -/
def saveAutoDiscover (s : MState) : MState × Option SaveRequest :=
  saveOrgFolderStart [] s

/-- C9: for any composition of the repository collection, the
selectable-repositories view excludes every repository flagged
pipeline-created, includes every other repository, and preserves their
order (it is a sublist of the collection). -/
theorem selectable_excludes_pipeline_created (s : MState) :
    (∀ repo ∈ selectableRepositories s, repo.pipelineCreated = false)
    ∧ (∀ repo ∈ s.repositories, repo.pipelineCreated = false →
        repo ∈ selectableRepositories s)
    ∧ (selectableRepositories s).Sublist s.repositories := by
  refine ⟨?_, ?_, List.filter_sublist _⟩
  · intro repo hmem
    have := (List.mem_filter.mp hmem).2
    simpa using this
  · intro repo hmem hpc
    exact List.mem_filter.mpr ⟨hmem, by simp [hpc]⟩

/-- Witness for C9 at a concrete two-element collection. -/
theorem selectable_excludes_pipeline_created_witness :
    (⟨"b", false⟩ : Repo) ∈ selectableRepositories
      { initState with repositories := [⟨"a", true⟩, ⟨"b", false⟩] } :=
  (selectable_excludes_pipeline_created
      { initState with repositories := [⟨"a", true⟩, ⟨"b", false⟩] }).2.1
    ⟨"b", false⟩ (by simp) rfl

/-- C7: when the token promise is rejected, `createAccessToken` resolves to
the structured value with `success` false and `detail` equal to the error response body and the state — in
particular the step stack and current step — is left unchanged. -/
theorem create_token_failure_reports_detail (e : JsError) (s : MState) :
    (createAccessTokenCont (Except.error e) s).2
        = ⟨false, some e.responseBody⟩
    ∧ (createAccessTokenCont (Except.error e) s).1 = s
    ∧ (createAccessTokenCont (Except.error e) s).1.stepStack = s.stepStack :=
  ⟨rfl, rfl, rfl⟩

/-- C6: the single-repository save persists exactly the names of the cached
repositories flagged pipeline-created, in their cached order, followed by
the selected repository's name. -/
theorem save_single_repo_name_list (s : MState) (org : Organization)
    (allRepos : List Repo) (sel : Repo)
    (ho : s.selectedOrganization = some org)
    (hc : cacheLookup org.name s.repositoryCache = some allRepos)
    (hr : s.selectedRepository = some sel) :
    ∃ st req, saveSingleRepo s = some (st, some req)
      ∧ req.repoNames
          = (allRepos.filter (fun repo => repo.pipelineCreated)).map
              (fun repo => repo.name) ++ [sel.name] := by
  have hnames : getFullRepoNameList s
      = some ((allRepos.filter (fun repo => repo.pipelineCreated)).map
          (fun repo => repo.name) ++ [sel.name]) := by
    unfold getFullRepoNameList
    rw [ho]
    dsimp only
    rw [hc]
    dsimp only
    rw [hr]
  refine ⟨(saveOrgFolderStart ((allRepos.filter (fun repo => repo.pipelineCreated)).map
      (fun repo => repo.name) ++ [sel.name]) s).1,
    ⟨!org.jenkinsOrganizationPipeline,
      (allRepos.filter (fun repo => repo.pipelineCreated)).map
        (fun repo => repo.name) ++ [sel.name]⟩, ?_, rfl⟩
  unfold saveSingleRepo
  rw [hnames]
  unfold saveOrgFolderStart
  simp only [Option.map_some', setPendingSteps, pushStep, setStatus]
  rw [ho]

/-- Witness for C6: selected repository "X" with cached pipeline-created
repos "A" and "B" (and an unflagged "C" between them) persists
`["A", "B", "X"]`. -/
theorem save_single_repo_name_list_witness :
    ∃ st req,
      saveSingleRepo
        { initState with
            selectedOrganization := some ⟨"acme", false, false⟩
            selectedRepository := some ⟨"X", false⟩
            repositoryCache :=
              [("acme", [⟨"A", true⟩, ⟨"C", false⟩, ⟨"B", true⟩])] }
        = some (st, some req)
      ∧ req.repoNames = ["A", "B", "X"] := by
  obtain ⟨st, req, h1, h2⟩ := save_single_repo_name_list
    { initState with
        selectedOrganization := some ⟨"acme", false, false⟩
        selectedRepository := some ⟨"X", false⟩
        repositoryCache :=
          [("acme", [⟨"A", true⟩, ⟨"C", false⟩, ⟨"B", true⟩])] }
    ⟨"acme", false, false⟩ [⟨"A", true⟩, ⟨"C", false⟩, ⟨"B", true⟩] ⟨"X", false⟩
    rfl (by simp [cacheLookup]) rfl
  exact ⟨st, req, h1, by rw [h2]; rfl⟩

/-- Promise `.then(onFulfilled)` with no rejection handler: a rejection
propagates past it unhandled. -/
def thenFulfilled {α β : Type} (p : Except JsError α) (f : α → Except JsError β) :
    Except JsError β :=
  match p with
  | Except.ok a => f a
  | Except.error e => Except.error e

/-- Promise `.then(onFulfilled, onRejected)` with both handlers installed. -/
def thenBoth {α β : Type} (p : Except JsError α) (f : α → Except JsError β)
    (g : JsError → Except JsError β) : Except JsError β :=
  match p with
  | Except.ok a => f a
  | Except.error e => g e

/-- Modelled from the spec: `waitAtLeast` (in `flow2/waitAtLeast`, outside
the given sources) delays resolution to a minimum duration and passes the
value or error through unchanged; with timing erased its fulfillment
continuation is the identity. -/
def waitAtLeastCont {α : Type} (a : α) : Except JsError α :=
  Except.ok a

/-- The continuation chain of `findExistingCredential`:
`.then(waitAtLeast(MIN_DELAY)).then(credential => ...)` — no rejection
handler anywhere on the chain. -/
def findExistingCredentialChain (p : Except JsError (Option Credential))
    (s : MState) : Except JsError MState :=
  thenFulfilled (thenFulfilled p waitAtLeastCont)
    (fun credential => Except.ok (afterInitialStep credential s))

/-- The continuation chain of `createAccessToken`:
`.then(waitAtLeast(MIN_DELAY)).then(success, failure)` — rejection handler
installed on the final `.then`. -/
def createAccessTokenChain (p : Except JsError Credential) (s : MState) :
    Except JsError (MState × CreateTokenResult) :=
  thenBoth (thenFulfilled p waitAtLeastCont)
    (fun cred => Except.ok (createTokenSuccess cred s))
    (fun e => Except.ok (s, createTokenFailure e))

/-- The continuation chain of `listOrganizations`:
`.then(waitAtLeast(MIN_DELAY)).then(orgs => ...)` — no rejection handler. -/
def listOrganizationsChain (p : Except JsError (List Organization)) (s : MState) :
    Except JsError MState :=
  thenFulfilled (thenFulfilled p waitAtLeastCont)
    (fun orgs => Except.ok (updateOrganizations orgs s))

/-- The continuation chain of `_loadAllRepositories` for the first page:
`.then(waitAtLeast(MIN_DELAY)).then(repos => ...)` — no rejection handler. -/
def loadAllRepositoriesChain (p : Except JsError RepoPageResponse)
    (organizationName : String) (s : MState) : Except JsError MState :=
  thenFulfilled (thenFulfilled p waitAtLeastCont)
    (fun repos => Except.ok (updateRepositories organizationName repos s))

/-- The continuation chain of the recursive fetch inside
`_updateRepositories`: `.then(repos2 => ...)` — no rejection handler. -/
def updateRepositoriesNextChain (p : Except JsError RepoPageResponse)
    (organizationName : String) (s : MState) : Except JsError MState :=
  thenFulfilled p
    (fun repos2 => Except.ok (updateRepositories organizationName repos2 s))

/-- The continuation chain of `_saveOrgFolder`:
`.then(waitAtLeast(500)).then(success, failure)` — rejection handler
installed on the final `.then`. -/
def saveOrgFolderChain (p : Except JsError OrgFolder) (subId timerId : Nat)
    (s : MState) : Except JsError MState :=
  thenBoth (thenFulfilled p waitAtLeastCont)
    (fun r => Except.ok (saveOrgFolderSuccess r subId timerId s))
    (fun _ => Except.ok (saveOrgFolderFailure s))

/-- Counterexample for C8: it is not the case that every asynchronous chain
handles its rejection path — the `findExistingCredential` chain lets a
concrete rejection escape uncaught. -/
theorem all_async_failures_handled_refuted :
    ¬ ∀ (p : Except JsError (Option Credential)) (s : MState),
        (findExistingCredentialChain p s).isOk = true := by
  intro h
  have := h (Except.error ⟨"bad credentials"⟩) initState
  simp [findExistingCredentialChain, thenFulfilled, Except.isOk, Except.toBool] at this

/-- C8 as amended: the token-creation and save chains pair every rejection
with a handler and always settle fulfilled, while the credential-discovery,
organization-listing and repository-pagination chains install no rejection
handler, so their rejections propagate uncaught. -/
theorem async_failure_handler_pairing :
    (∀ (p : Except JsError Credential) (s : MState),
        (createAccessTokenChain p s).isOk = true)
    ∧ (∀ (p : Except JsError OrgFolder) (subId timerId : Nat) (s : MState),
        (saveOrgFolderChain p subId timerId s).isOk = true)
    ∧ (∀ (e : JsError) (s : MState),
        findExistingCredentialChain (Except.error e) s = Except.error e)
    ∧ (∀ (e : JsError) (s : MState),
        listOrganizationsChain (Except.error e) s = Except.error e)
    ∧ (∀ (e : JsError) (organizationName : String) (s : MState),
        loadAllRepositoriesChain (Except.error e) organizationName s = Except.error e
        ∧ updateRepositoriesNextChain (Except.error e) organizationName s
            = Except.error e) := by
  refine ⟨fun p s => ?_, fun p subId timerId s => ?_,
    fun e s => rfl, fun e s => rfl, fun e organizationName s => ⟨rfl, rfl⟩⟩
  · cases p <;> rfl
  · cases p <;> rfl

/-- One externally triggered operation of the flow manager, or one delivered
asynchronous continuation, as a step relation on states. -/
inductive Transition : MState → MState → Prop where
  | afterInitial (credential : Option Credential) (s : MState) :
      Transition s (afterInitialStep credential s)
  | createToken (outcome : Except JsError Credential) (s : MState) :
      Transition s (createAccessTokenCont outcome s).1
  | updateOrgs (organizations : List Organization) (s : MState) :
      Transition s (updateOrganizations organizations s)
  | selectOrg (organization : Organization) (s : MState) :
      Transition s (selectOrganization organization s)
  | selectDisc (discover : Bool) (s : MState) :
      Transition s (selectDiscover discover s)
  | selectRepo (repo : Repo) (s : MState) :
      Transition s (selectRepository repo s)
  | pageArrived (organizationName : String) (repoData : RepoPageResponse) (s : MState) :
      Transition s (updateRepositories organizationName repoData s)
  | saveSingle (s : MState) (st : MState × Option SaveRequest)
      (h : saveSingleRepo s = some st) : Transition s st.1
  | saveAuto (s : MState) : Transition s (saveAutoDiscover s).1
  | saveSuccess (orgFolder : OrgFolder) (subId timerId : Nat) (s : MState) :
      Transition s (saveOrgFolderSuccess orgFolder subId timerId s)
  | saveFailure (s : MState) : Transition s (saveOrgFolderFailure s)
  | sseDelivery (e : SseEvent) (s : MState) :
      Transition s (deliverEvent e s)
  | sseTimer (s : MState) : Transition s (fireTimeout s)
  | destroyed (s : MState) : Transition s (destroy s)

/-- States reachable from the freshly constructed manager. -/
inductive Reachable : MState → Prop where
  | init : Reachable initState
  | step {s t : MState} : Reachable s → Transition s t → Reachable t

theorem updateRepositories_sseFields (organizationName : String)
    (repoData : RepoPageResponse) (s : MState) :
    (updateRepositories organizationName repoData s).sseSubscribeId = s.sseSubscribeId
    ∧ (updateRepositories organizationName repoData s).sseTimeoutId = s.sseTimeoutId := by
  unfold updateRepositories
  dsimp only
  split
  · exact ⟨rfl, rfl⟩
  · split <;> exact ⟨rfl, rfl⟩

theorem saveOrgFolderStart_sseFields (repoNames : List String) (s : MState) :
    (saveOrgFolderStart repoNames s).1.sseSubscribeId = s.sseSubscribeId
    ∧ (saveOrgFolderStart repoNames s).1.sseTimeoutId = s.sseTimeoutId := by
  unfold saveOrgFolderStart
  dsimp only
  split <;> exact ⟨rfl, rfl⟩

theorem onSseEvent_preserves (e : SseEvent) (s : MState)
    (h : s.sseSubscribeId.isSome = s.sseTimeoutId.isSome) :
    (onSseEvent e s).sseSubscribeId.isSome = (onSseEvent e s).sseTimeoutId.isSome := by
  unfold onSseEvent
  cases hf : s.savedOrgFolder with
  | none => exact h
  | some folder =>
      dsimp only
      split
      · split
        · split
          · rw [cleanupListeners_sseSubscribeId, cleanupListeners_sseTimeoutId]
          · split
            · rw [cleanupListeners_sseSubscribeId, cleanupListeners_sseTimeoutId]
            · exact h
        · exact h
      · exact h

theorem transition_preserves_listeners (s t : MState) (htrans : Transition s t)
    (ih : s.sseSubscribeId.isSome = s.sseTimeoutId.isSome) :
    t.sseSubscribeId.isSome = t.sseTimeoutId.isSome := by
  cases htrans with
  | afterInitial credential =>
      cases credential with
      | none => simpa [afterInitialStep, replaceCurrentStep] using ih
      | some cred =>
          cases hc : cred.credentialId <;>
            simpa [afterInitialStep, replaceCurrentStep, hc] using ih
  | createToken outcome =>
      cases outcome with
      | ok cred =>
          simpa [createAccessTokenCont, createTokenSuccess, pushStep] using ih
      | error e => simpa [createAccessTokenCont] using ih
  | updateOrgs organizations =>
      simpa [updateOrganizations, setPendingSteps, replaceCurrentStep] using ih
  | selectOrg organization =>
      simpa [selectOrganization, pushStep, setStatus] using ih
  | selectDisc discover =>
      unfold selectDiscover
      dsimp only
      cases ho : s.selectedOrganization with
      | none => simpa using ih
      | some org =>
          dsimp only
          split <;>
            simpa [pushStep, setStatus, loadAllRepositoriesStart] using ih
  | selectRepo repo => simpa [selectRepository] using ih
  | pageArrived organizationName repoData =>
      have h2 := updateRepositories_sseFields organizationName repoData s
      rw [h2.1, h2.2]; exact ih
  | saveSingle =>
      rename_i st h
      unfold saveSingleRepo at h
      rw [Option.map_eq_some'] at h
      obtain ⟨names, hn, hst⟩ := h
      rw [← hst]
      have h2 := saveOrgFolderStart_sseFields names s
      rw [h2.1, h2.2]; exact ih
  | saveAuto =>
      have h2 := saveOrgFolderStart_sseFields [] s
      rw [saveAutoDiscover, h2.1, h2.2]; exact ih
  | saveSuccess orgFolder subId timerId => rfl
  | saveFailure => simpa [saveOrgFolderFailure, setStatus] using ih
  | sseDelivery e =>
      unfold deliverEvent
      split
      · exact onSseEvent_preserves e s ih
      · exact ih
  | sseTimer =>
      unfold fireTimeout
      split
      · rw [onSseTimeout, cleanupListeners_sseSubscribeId, cleanupListeners_sseTimeoutId]
      · exact ih
  | destroyed =>
      rw [destroy, cleanupListeners_sseSubscribeId, cleanupListeners_sseTimeoutId]

theorem reachable_listeners_together (s : MState) (hs : Reachable s) :
    s.sseSubscribeId.isSome = s.sseTimeoutId.isSome := by
  induction hs with
  | init => rfl
  | step hr htrans ih => exact transition_preserves_listeners _ _ htrans ih

/-- C5: in every reachable state the SSE subscription and its timeout timer
are either both active or both inactive; arming on save success installs
both together; disarming releases both together and is idempotent — safe to
call even when already disarmed. -/
theorem listeners_armed_together :
    (∀ s : MState, Reachable s →
        (s.sseSubscribeId.isSome = true ↔ s.sseTimeoutId.isSome = true))
    ∧ (∀ (orgFolder : OrgFolder) (subId timerId : Nat) (s : MState),
        (saveOrgFolderSuccess orgFolder subId timerId s).sseSubscribeId = some subId
        ∧ (saveOrgFolderSuccess orgFolder subId timerId s).sseTimeoutId = some timerId)
    ∧ (∀ s : MState,
        (cleanupListeners s).sseSubscribeId = none
        ∧ (cleanupListeners s).sseTimeoutId = none
        ∧ cleanupListeners (cleanupListeners s) = cleanupListeners s) := by
  refine ⟨?_, fun orgFolder subId timerId s => ⟨rfl, rfl⟩, fun s =>
    ⟨cleanupListeners_sseSubscribeId s, cleanupListeners_sseTimeoutId s,
      cleanupListeners_idem s⟩⟩
  intro s hs
  rw [reachable_listeners_together s hs]

/-- Witness for C5 at the initial state and a concrete arming. -/
theorem listeners_armed_together_witness :
    (initState.sseSubscribeId.isSome = true ↔ initState.sseTimeoutId.isSome = true)
    ∧ ((saveOrgFolderSuccess ⟨"/job/a/"⟩ 5 6 initState).sseSubscribeId = some 5
        ∧ (saveOrgFolderSuccess ⟨"/job/a/"⟩ 5 6 initState).sseTimeoutId = some 6)
    ∧ cleanupListeners (cleanupListeners initState) = cleanupListeners initState :=
  ⟨listeners_armed_together.1 initState Reachable.init,
    listeners_armed_together.2.1 ⟨"/job/a/"⟩ 5 6 initState,
    (listeners_armed_together.2.2 initState).2.2⟩

end GithubFlow
